import Mathlib

/-!
Verification of the CIFAR-10 binary record decoder of the `cifar-ten` crate
(`src/lib.rs`).

The decoder `get_data` takes a byte buffer (the concatenation of the binary
batch files for one split) and a configured record count, and produces a
label matrix of shape `(num_records, 10)` and an image tensor of shape
`(num_records, 3, 32, 32)`.

Shallow embedding conventions:
* bytes are `Nat` (every byte of a real input is below 256; the claims that
  need this bound carry it as a hypothesis);
* the `Array4` image tensor is kept as the flat byte vector the source
  builds (`data: Vec<u8>`), together with the row-major index mapping
  `i*3072 + ch*1024 + r*32 + c` that `Array::from_shape_vec` gives it;
* every way the source can panic or return `Err` is an explicit
  `DecodeError` value: `Vec`/slice indexing panics, `ndarray` indexed
  assignment panics, the explicit label-range panic, the
  `from_shape_vec`/`into_shape` errors, and the panic on an unknown
  dataset name.
-/

/-- One zeroed row of the label matrix, as produced by
`Array2::zeros((num_records, 10))` in `get_data`. -/
def zeroRow : List Nat := List.replicate 10 0

/-- A row holding a single 1 at position `l` and 0 elsewhere (for `l < 10`):
the shape a fully decoded label row takes. -/
def oneHotRow (l : Nat) : List Nat := zeroRow.set l 1

/-- Checked indexed assignment `m[[i, j]] = v` on a row-major matrix,
mirroring `ndarray` indexed assignment on `Array2`: `none` models the panic
raised when either the row or the column index is out of bounds. -/
def mat2set (m : List (List Nat)) (i j v : Nat) : Option (List (List Nat)) :=
  match m.get? i with
  | none => none
  | some row => if j < row.length then some (m.set i (row.set j v)) else none

/-- Every way the decode path of `lib.rs` can fail: `Vec`/slice index
panics, `ndarray` index panics, the explicit label-range panic in the
record loop, shape errors propagated with `?`, and the panic on a dataset
name other than "train"/"test". -/
inductive DecodeError where
  | bufferIndexOOB (idx : Nat)
  | tensorIndexOOB (row col : Nat)
  | labelRange (label : Nat)
  | sliceOOB (endIdx : Nat)
  | shapeMismatch
  | invalidDatasetName
  deriving DecidableEq, Repr

/-- The successful result of `get_data`: the flat image byte vector
(`data`, read row-major as shape `(num_records, 3, 32, 32)`) and the label
matrix (`labels`, shape `(num_records, 10)`). -/
structure DecodeOk where
  data : List Nat
  labels : List (List Nat)
  deriving DecidableEq, Repr

/-- One iteration of the record loop of `get_data` (`lib.rs` lines
287-299) at record index `num`, acting on the state
`(data, labels)`:

* `base = num * 3073`;
* `label = buffer[base]` (panics out of bounds);
* `if label > 9` panic with the label-range message;
* `labels[[num, label]] = 1` (ndarray panics if an index is out of bounds);
* `data.extend(&buffer[base + 1..=base + 3072])` (panics if the slice end
  exceeds the buffer length). -/
def decodeStep (buffer : List Nat) (st : List Nat × List (List Nat)) (num : Nat) :
    Except DecodeError (List Nat × List (List Nat)) :=
  match buffer.get? (num * 3073) with
  | none => .error (.bufferIndexOOB (num * 3073))
  | some label =>
      if 9 < label then
        .error (.labelRange label)
      else
        match mat2set st.2 num label 1 with
        | none => .error (.tensorIndexOOB num label)
        | some newLabels =>
            if num * 3073 + 3073 ≤ buffer.length then
              .ok (st.1 ++ (buffer.drop (num * 3073 + 1)).take 3072, newLabels)
            else
              .error (.sliceOOB (num * 3073 + 3073))

/-- The record loop `for num in 0..num_records` of `get_data`, run on the
first `n` record indices in ascending order (`decodeUpTo buffer labels0 n`
processes records `0, 1, ..., n-1`, threading the `(data, labels)` state
and stopping at the first failure). -/
def decodeUpTo (buffer : List Nat) (labels0 : List (List Nat)) :
    Nat → Except DecodeError (List Nat × List (List Nat))
  | 0 => .ok ([], labels0)
  | n + 1 =>
      match decodeUpTo buffer labels0 n with
      | .error e => .error e
      | .ok st => decodeStep buffer st n

/-- The pure decode core of `get_data` (`lib.rs` lines 283-300), after the
files have been read into `buffer`:

* `labels = Array2::zeros((num_records, 10))`;
* the pre-loop statement `labels[[0, buffer[0] as usize]] = 1;` (line 284),
  which indexes `buffer[0]` and then the label matrix with **no** bounds or
  range validation;
* the record loop (`decodeStep` for records `0..num_records`);
* `Array::from_shape_vec((num_records, 3, 32, 32), data)?`, which errors
  unless `data` holds exactly `num_records * 3072` elements.

The image-preview block (lines 302-334) only reads `data`/`labels` to
display one record and never modifies them, so it does not appear in the
returned value. -/
def getData (buffer : List Nat) (numRecords : Nat) : Except DecodeError DecodeOk :=
  match buffer.get? 0 with
  | none => .error (.bufferIndexOOB 0)
  | some b0 =>
      match mat2set (List.replicate numRecords zeroRow) 0 b0 1 with
      | none => .error (.tensorIndexOOB 0 b0)
      | some labels1 =>
          match decodeUpTo buffer labels1 numRecords with
          | .error e => .error e
          | .ok st =>
              if st.1.length = numRecords * 3072 then
                .ok ⟨st.1, st.2⟩
              else
                .error .shapeMismatch

/-- The label byte of record `i`: `buffer[i * 3073]` (default 0 when out of
range; the lemmas using it always have the index in range). -/
def labelAt (buffer : List Nat) (i : Nat) : Nat := (buffer.get? (i * 3073)).getD 0

/-- The 3072 image payload bytes of record `i`:
`buffer[i*3073 + 1 ..= i*3073 + 3072]`. -/
def recSlice (buffer : List Nat) (i : Nat) : List Nat :=
  (buffer.drop (i * 3073 + 1)).take 3072

/-- The flat image bytes accumulated by the first `n` loop iterations:
payloads of records `0, ..., n-1` in order. -/
def loopData (buffer : List Nat) : Nat → List Nat
  | 0 => []
  | n + 1 => loopData buffer n ++ recSlice buffer n

/-- The image byte vector a successful decode of `numRecords` records
produces. -/
def decodedData (buffer : List Nat) (numRecords : Nat) : List Nat :=
  loopData buffer numRecords

/-- The label matrix a successful decode of `numRecords` records produces:
row `i` is the one-hot row of `buffer[i * 3073]`. -/
def decodedLabels (buffer : List Nat) (numRecords : Nat) : List (List Nat) :=
  (List.range numRecords).map (fun i => oneHotRow (labelAt buffer i))

/-- The raw loader of `get_data` (`lib.rs` lines 266-280): each listed file
is read fully (`read_to_end`) and appended to the buffer
(`buffer.extend(&temp_buffer)`) in file-list order. `fileContents` stands
for the byte contents the filesystem returns for each listed path, in list
order; I/O failures abort before any decoding and are out of scope here. -/
def loadBuffer (fileContents : List (List Nat)) : List Nat :=
  fileContents.foldl (fun buffer fileBytes => buffer ++ fileBytes) []

/-- The `Cifar10` configuration struct (`lib.rs` lines 53-63). Paths are
kept as strings; only the record counts reach the pure decode core. -/
structure Cifar10Config where
  basePath : String
  cifarDataPath : String
  showImages : Bool
  encodeOneHot : Bool
  trainingBinPaths : List String
  testingBinPaths : List String
  numRecordsTrain : Nat
  numRecordsTest : Nat
  downloadAndExtract : Bool
  deriving DecidableEq, Repr

/-- `Cifar10::default()` (`lib.rs` lines 67-85). -/
def defaultConfig : Cifar10Config where
  basePath := "data/"
  cifarDataPath := "cifar-10-batches-bin/"
  showImages := false
  encodeOneHot := true
  trainingBinPaths :=
    ["data_batch_1.bin", "data_batch_2.bin", "data_batch_3.bin",
     "data_batch_4.bin", "data_batch_5.bin"]
  testingBinPaths := ["test_batch.bin"]
  numRecordsTrain := 50000
  numRecordsTest := 10000
  downloadAndExtract := false

/-- The builder method `encode_one_hot` (`lib.rs` lines 112-115): records
the flag in the configuration. -/
def Cifar10Config.withEncodeOneHot (c : Cifar10Config) (b : Bool) : Cifar10Config :=
  { c with encodeOneHot := b }

/-- `get_data(config, dataset)` including the dataset dispatch (`lib.rs`
lines 260-264): "train" uses `num_records_train`, "test" uses
`num_records_test`, any other name panics. `fileContents` is the byte
contents of the split's listed files, in list order (see `loadBuffer`). -/
def getDataCfg (config : Cifar10Config) (dataset : String)
    (fileContents : List (List Nat)) : Except DecodeError DecodeOk :=
  match dataset with
  | "train" => getData (loadBuffer fileContents) config.numRecordsTrain
  | "test" => getData (loadBuffer fileContents) config.numRecordsTest
  | _ => .error .invalidDatasetName

/-- The image half of the flat/float post-processing of
`build_as_flat_f32` (`lib.rs` lines 225-227 / 229-231): reshape the
`(N,3,32,32)` tensor to `(N, 32*32*3)` — on the flat byte vector the
row-major reshape is the identity — and map `x as f32 / 256.`.

The `f32` arithmetic is modelled in `ℚ` without loss: every byte `x ≤ 255`
is exactly representable in binary32, `x / 256.0` scales the exponent by
`2^-8` and is exact, and `256.0 * (x / 256.0)` is exact again, so no
rounding occurs anywhere on this path. -/
def flatDataQ (ok : DecodeOk) : List ℚ :=
  ok.data.map (fun x : Nat => (x : ℚ) / 256)

/-- The label half of the flat/float post-processing
(`train_labels.mapv(|x| x as f32)`, `lib.rs` lines 224/228): a plain cast,
no rescaling, shape preserved. -/
def flatLabelsQ (ok : DecodeOk) : List (List ℚ) :=
  ok.labels.map (fun row => row.map (fun x : Nat => (x : ℚ)))

/-- One split of `build_as_flat_f32` (`lib.rs` lines 218-234): the
`into_shape((num_records, 32 * 32 * 3))` reshape errors (propagated with
`?`) unless the tensor holds exactly `numRecords * 3072` elements;
otherwise the mapped float tensors are returned. -/
def buildAsFlatF32Split (numRecords : Nat) (ok : DecodeOk) :
    Except DecodeError (List ℚ × List (List ℚ)) :=
  if ok.data.length = numRecords * 3072 then
    .ok (flatDataQ ok, flatLabelsQ ok)
  else
    .error .shapeMismatch

/-- Synthetic single-record input of claim C4: label byte 3, channel 0 all
10, channel 1 all 20, channel 2 all 30. -/
def synthBuffer : List Nat :=
  3 :: (List.replicate 1024 10 ++ List.replicate 1024 20 ++ List.replicate 1024 30)

/-- Concrete single-record input (label 2, payload all 7) used to witness
the flat/float claim. -/
def c5buf : List Nat := 2 :: List.replicate 3072 7

/-- Concrete single-record input (label 4, payload all 1) used to witness
the one-hot-flag claim. -/
def c6buf : List Nat := 4 :: List.replicate 3072 1

/-- Default configuration with the training record count set to 1. -/
def cfg6 : Cifar10Config := { defaultConfig with numRecordsTrain := 1 }

/-- Concrete input with one valid record (label 3) followed by one surplus
byte: its length 3074 strictly exceeds `1 * 3073`. -/
def c7buf : List Nat := 3 :: (List.replicate 3072 0 ++ [7])

/-- Concrete well-formed single-record input (label 9, payload all 2). -/
def c8buf : List Nat := 9 :: List.replicate 3072 2

/-- Concrete well-formed single-record input (label 5, payload all 4). -/
def c3buf : List Nat := 5 :: List.replicate 3072 4

/-- First file of the two-file concatenation scenario: two records with
label bytes 1 and 2, zero payloads. -/
def fileA : List Nat := 1 :: (List.replicate 3072 0 ++ (2 :: List.replicate 3072 0))

/-- Second file of the two-file concatenation scenario: two records with
label bytes 3 and 4, zero payloads. -/
def fileB : List Nat := 3 :: (List.replicate 3072 0 ++ (4 :: List.replicate 3072 0))

/-! ## Helper lemmas -/

lemma oneHotRow_length (l : Nat) : (oneHotRow l).length = 10 := by
  simp [oneHotRow, zeroRow]

lemma get?_replicate_lt {α : Type} (a : α) {n i : Nat} (h : i < n) :
    (List.replicate n a).get? i = some a := by
  simp [List.get?_eq_getElem?, List.getElem?_replicate, h]

lemma get?_set_self {α : Type} (l : List α) (i : Nat) (a : α) (h : i < l.length) :
    (l.set i a).get? i = some a := by
  rw [List.get?_set_eq, List.get?_eq_get h]; rfl

lemma labelAt_of_get? {buffer : List Nat} {i l : Nat}
    (h : buffer.get? (i * 3073) = some l) : labelAt buffer i = l := by
  unfold labelAt
  rw [h]
  rfl

lemma get?_labelAt {buffer : List Nat} {i : Nat} (h : i * 3073 < buffer.length) :
    buffer.get? (i * 3073) = some (labelAt buffer i) := by
  unfold labelAt
  rw [List.get?_eq_get h]
  rfl

lemma loopData_length (buffer : List Nat) :
    ∀ N : Nat, N * 3073 ≤ buffer.length → (loopData buffer N).length = N * 3072
  | 0, _ => rfl
  | N + 1, h => by
      have ih := loopData_length buffer N (by omega)
      simp only [loopData, List.length_append, ih, recSlice, List.length_take,
        List.length_drop]
      omega

lemma loopData_get? (buffer : List Nat) :
    ∀ N : Nat, N * 3073 ≤ buffer.length → ∀ i k : Nat, i < N → k < 3072 →
      (loopData buffer N).get? (i * 3072 + k) = buffer.get? (i * 3073 + 1 + k)
  | 0, _, i, k, hi, _ => absurd hi (by omega)
  | N + 1, h, i, k, hi, hk => by
      have hlen := loopData_length buffer N (by omega)
      rcases Nat.lt_or_ge i N with hiN | hiN
      · rw [loopData, List.get?_append (by rw [hlen]; nlinarith)]
        exact loopData_get? buffer N (by omega) i k hiN hk
      · have hiEq : i = N := by omega
        subst hiEq
        rw [loopData, List.get?_append_right (by rw [hlen]; nlinarith)]
        rw [hlen]
        have hsub : i * 3072 + k - i * 3072 = k := by omega
        rw [hsub, recSlice, List.get?_take hk, List.get?_drop]

lemma decodeUpTo_ok (buffer : List Nat) (L0 : List (List Nat)) :
    ∀ N : Nat, N * 3073 ≤ buffer.length →
      (∀ i, i < N → labelAt buffer i ≤ 9) →
      (∀ i, i < N → ∃ row, L0.get? i = some row ∧ row.length = 10 ∧
        row.set (labelAt buffer i) 1 = oneHotRow (labelAt buffer i)) →
      ∃ L, decodeUpTo buffer L0 N = .ok (loopData buffer N, L) ∧
        L.length = L0.length ∧
        (∀ i, i < N → L.get? i = some (oneHotRow (labelAt buffer i))) ∧
        (∀ i, N ≤ i → L.get? i = L0.get? i)
  | 0, _, _, _ =>
      ⟨L0, rfl, rfl, fun i hi => absurd hi (by omega), fun i _ => rfl⟩
  | N + 1, hlen, hlbl, hrow => by
      obtain ⟨L, hL, hlenL, hin, hout⟩ :=
        decodeUpTo_ok buffer L0 N (by omega)
          (fun i hi => hlbl i (by omega)) (fun i hi => hrow i (by omega))
      obtain ⟨row, hrow0, hrowlen, hrowset⟩ := hrow N (by omega)
      have hNL0 : N < L0.length := (List.get?_eq_some.mp hrow0).1
      have hbase : N * 3073 < buffer.length := by omega
      have hget : buffer.get? (N * 3073) = some (labelAt buffer N) :=
        get?_labelAt hbase
      have hLN : L.get? N = some row := by rw [hout N (le_refl N), hrow0]
      have h9 := hlbl N (by omega)
      have hget2 : buffer[N * 3073]? = some (labelAt buffer N) := by
        rw [← List.get?_eq_getElem?]; exact hget
      have hLN2 : L[N]? = some row := by
        rw [← List.get?_eq_getElem?]; exact hLN
      have hnot9 : ¬ 9 < labelAt buffer N := by omega
      have hcol : labelAt buffer N < row.length := by omega
      have hslice : N * 3073 + 3073 ≤ buffer.length := by omega
      have hstep : decodeStep buffer (loopData buffer N, L) N =
          .ok (loopData buffer N ++ recSlice buffer N,
            L.set N (oneHotRow (labelAt buffer N))) := by
        simp [decodeStep, hget, hget2, hnot9, mat2set, hLN, hLN2, hcol, hslice,
          recSlice, hrowset]
      refine ⟨L.set N (oneHotRow (labelAt buffer N)), ?_, ?_, ?_, ?_⟩
      · simp only [decodeUpTo, hL, hstep, loopData]
      · rw [List.length_set, hlenL]
      · intro i hi
        rcases Nat.lt_or_ge i N with hiN | hiN
        · rw [List.get?_set_ne _ _ (by omega), hin i hiN]
        · have hiEq : i = N := by omega
          subst hiEq
          exact get?_set_self _ _ _ (by omega)
      · intro i hi
        rw [List.get?_set_ne _ _ (by omega), hout i (by omega)]

lemma decodedLabels_get?_lt {buffer : List Nat} {N i : Nat} (hi : i < N) :
    (decodedLabels buffer N).get? i = some (oneHotRow (labelAt buffer i)) := by
  unfold decodedLabels
  rw [List.get?_map, List.get?_range hi]
  rfl

lemma decodedLabels_length (buffer : List Nat) (N : Nat) :
    (decodedLabels buffer N).length = N := by
  simp [decodedLabels]

lemma getData_ok (buffer : List Nat) (N : Nat) (hN : 1 ≤ N)
    (hlen : N * 3073 ≤ buffer.length)
    (hlbl : ∀ i, i < N → labelAt buffer i ≤ 9) :
    getData buffer N = .ok ⟨decodedData buffer N, decodedLabels buffer N⟩ := by
  have h0 : 0 < buffer.length := by omega
  have hl0 : labelAt buffer 0 ≤ 9 := hlbl 0 (by omega)
  have hb0 : buffer.get? 0 = some (labelAt buffer 0) := by
    have hgl : buffer.get? (0 * 3073) = some (labelAt buffer 0) :=
      get?_labelAt (by omega)
    simpa using hgl
  have hrep : (List.replicate N zeroRow).get? 0 = some zeroRow :=
    get?_replicate_lt _ (by omega)
  have hzlen : labelAt buffer 0 < zeroRow.length := by
    simp only [zeroRow, List.length_replicate]
    omega
  have hset : mat2set (List.replicate N zeroRow) 0 (labelAt buffer 0) 1 =
      some ((List.replicate N zeroRow).set 0 (oneHotRow (labelAt buffer 0))) := by
    simp only [mat2set, hrep]
    rw [if_pos hzlen]
    rfl
  have hrowAll : ∀ i, i < N → ∃ row,
      ((List.replicate N zeroRow).set 0 (oneHotRow (labelAt buffer 0))).get? i = some row ∧
        row.length = 10 ∧
        row.set (labelAt buffer i) 1 = oneHotRow (labelAt buffer i) := by
    intro i hi
    rcases Nat.eq_zero_or_pos i with h0i | h0i
    · subst h0i
      refine ⟨oneHotRow (labelAt buffer 0), ?_, oneHotRow_length _, ?_⟩
      · exact get?_set_self _ _ _ (by simp only [List.length_replicate]; omega)
      · simp only [oneHotRow, List.set_set]
    · refine ⟨zeroRow, ?_, by simp [zeroRow], rfl⟩
      rw [List.get?_set_ne _ _ (by omega)]
      exact get?_replicate_lt _ hi
  obtain ⟨L, hL, hlenL, hin, hout⟩ :=
    decodeUpTo_ok buffer ((List.replicate N zeroRow).set 0 (oneHotRow (labelAt buffer 0)))
      N hlen hlbl hrowAll
  have hLeq : L = decodedLabels buffer N := by
    apply List.ext_get?
    intro i
    rcases Nat.lt_or_ge i N with hi | hi
    · rw [hin i hi, decodedLabels_get?_lt hi]
    · rw [hout i hi]
      have h1 : ((List.replicate N zeroRow).set 0
          (oneHotRow (labelAt buffer 0))).get? i = none := by
        rw [List.get?_eq_none]
        simp only [List.length_set, List.length_replicate]
        omega
      have h2 : (decodedLabels buffer N).get? i = none := by
        rw [List.get?_eq_none, decodedLabels_length]
        omega
      rw [h1, h2]
  have hdl : (loopData buffer N).length = N * 3072 := loopData_length buffer N hlen
  simp only [getData, hb0, hset, hL, hdl, if_pos rfl, hLeq]
  rfl

lemma decodeStep_ok_inv {buffer : List Nat} {st : List Nat × List (List Nat)}
    {num : Nat} {out : List Nat × List (List Nat)}
    (h : decodeStep buffer st num = .ok out) :
    num * 3073 + 3073 ≤ buffer.length ∧ labelAt buffer num ≤ 9 := by
  unfold decodeStep at h
  split at h
  · cases h
  next label hget =>
    split at h
    · cases h
    next h9 =>
      split at h
      · cases h
      next newLabels hm =>
        split at h
        next hsl =>
          have hlab : labelAt buffer num = label := labelAt_of_get? hget
          exact ⟨hsl, by omega⟩
        · cases h

lemma decodeUpTo_ok_inv {buffer : List Nat} {L0 : List (List Nat)} :
    ∀ {N : Nat} {out : List Nat × List (List Nat)},
      decodeUpTo buffer L0 N = .ok out →
      N * 3073 ≤ buffer.length ∧ ∀ i, i < N → labelAt buffer i ≤ 9
  | 0, _, _ => ⟨by omega, fun i hi => absurd hi (by omega)⟩
  | N + 1, out, h => by
      unfold decodeUpTo at h
      cases hrec : decodeUpTo buffer L0 N with
      | error e => rw [hrec] at h; cases h
      | ok st =>
          rw [hrec] at h
          obtain ⟨hlen, hlbl⟩ := decodeUpTo_ok_inv hrec
          obtain ⟨hsl, hl9⟩ := decodeStep_ok_inv h
          refine ⟨by omega, fun i hi => ?_⟩
          rcases Nat.lt_or_ge i N with hiN | hiN
          · exact hlbl i hiN
          · have : i = N := by omega
            subst this
            exact hl9

lemma getData_ok_inv {buffer : List Nat} {N : Nat} {ok : DecodeOk}
    (h : getData buffer N = .ok ok) :
    1 ≤ N ∧ N * 3073 ≤ buffer.length ∧ (∀ i, i < N → labelAt buffer i ≤ 9) ∧
      ok = ⟨decodedData buffer N, decodedLabels buffer N⟩ := by
  have hcopy := h
  unfold getData at h
  split at h
  · cases h
  next b0 hb0 =>
    split at h
    · cases h
    next labels1 hm =>
      have hN : 1 ≤ N := by
        by_contra hN0
        have hN0eq : N = 0 := by omega
        subst hN0eq
        simp [mat2set] at hm
      split at h
      · cases h
      next st hrec =>
        obtain ⟨hlen, hlbl⟩ := decodeUpTo_ok_inv hrec
        have hcanon := getData_ok buffer N hN hlen hlbl
        rw [hcopy] at hcanon
        exact ⟨hN, hlen, hlbl, (Except.ok.injEq _ _).mp hcanon⟩

lemma oneHotRow_stats {l : Nat} (h : l ≤ 9) :
    (oneHotRow l).length = 10 ∧ (oneHotRow l).sum = 1 ∧
      (oneHotRow l).count 1 = 1 ∧ (oneHotRow l).count 0 = 9 := by
  interval_cases l <;> decide

lemma foldl_append_eq (fs : List (List Nat)) :
    ∀ acc : List Nat, fs.foldl (fun buffer fileBytes => buffer ++ fileBytes) acc =
      acc ++ fs.join := by
  induction fs with
  | nil => intro acc; simp
  | cons f rest ih =>
      intro acc
      simp [List.foldl_cons, ih, List.append_assoc]

lemma loadBuffer_eq_join (fileContents : List (List Nat)) :
    loadBuffer fileContents = fileContents.join := by
  unfold loadBuffer
  rw [foldl_append_eq]
  rfl

lemma recSlice_take {buffer : List Nat} {M i : Nat} (h : i * 3073 + 3073 ≤ M) :
    recSlice (buffer.take M) i = recSlice buffer i := by
  unfold recSlice
  rw [List.drop_take, List.take_take]
  congr 1
  omega

lemma loopData_take {buffer : List Nat} {M : Nat} :
    ∀ N : Nat, N * 3073 ≤ M → loopData (buffer.take M) N = loopData buffer N
  | 0, _ => rfl
  | N + 1, h => by
      rw [loopData, loopData, loopData_take N (by omega), recSlice_take (by omega)]

lemma labelAt_take {buffer : List Nat} {M i : Nat} (h : i * 3073 < M) :
    labelAt (buffer.take M) i = labelAt buffer i := by
  unfold labelAt
  rw [List.get?_take h]

lemma decodedLabels_take {buffer : List Nat} {M N : Nat} (h : N * 3073 ≤ M) :
    decodedLabels (buffer.take M) N = decodedLabels buffer N := by
  unfold decodedLabels
  apply List.map_congr_left
  intro i hi
  rw [labelAt_take (by have := List.mem_range.mp hi; omega)]

lemma decodeUpTo_error_mono {buffer : List Nat} {L0 : List (List Nat)} {e : DecodeError} :
    ∀ {m n : Nat}, m ≤ n → decodeUpTo buffer L0 m = .error e →
      decodeUpTo buffer L0 n = .error e := by
  intro m n
  induction n with
  | zero =>
      intro hmn h
      have hm0 : m = 0 := by omega
      subst hm0
      exact h
  | succ n ih =>
      intro hmn h
      rcases Nat.lt_or_ge m (n + 1) with hlt | hge
      · have hn := ih (by omega) h
        simp only [decodeUpTo, hn]
      · have hm : m = n + 1 := by omega
        subst hm
        exact h

lemma getData_error_label {buffer : List Nat} {N i : Nat}
    (h1 : 1 ≤ i) (hiN : i < N) (hlen : i * 3073 + 1 ≤ buffer.length)
    (hlbl : ∀ j, j < i → labelAt buffer j ≤ 9)
    (hbad : 9 < labelAt buffer i) :
    getData buffer N = .error (.labelRange (labelAt buffer i)) := by
  have h0 : 0 < buffer.length := by omega
  have hl0 : labelAt buffer 0 ≤ 9 := hlbl 0 (by omega)
  have hb0 : buffer.get? 0 = some (labelAt buffer 0) := by
    have hgl : buffer.get? (0 * 3073) = some (labelAt buffer 0) :=
      get?_labelAt (by omega)
    simpa using hgl
  have hrep : (List.replicate N zeroRow).get? 0 = some zeroRow :=
    get?_replicate_lt _ (by omega)
  have hzlen : labelAt buffer 0 < zeroRow.length := by
    simp only [zeroRow, List.length_replicate]
    omega
  have hset : mat2set (List.replicate N zeroRow) 0 (labelAt buffer 0) 1 =
      some ((List.replicate N zeroRow).set 0 (oneHotRow (labelAt buffer 0))) := by
    simp only [mat2set, hrep]
    rw [if_pos hzlen]
    rfl
  have hrowAll : ∀ j, j < i → ∃ row,
      ((List.replicate N zeroRow).set 0 (oneHotRow (labelAt buffer 0))).get? j = some row ∧
        row.length = 10 ∧
        row.set (labelAt buffer j) 1 = oneHotRow (labelAt buffer j) := by
    intro j hj
    rcases Nat.eq_zero_or_pos j with h0j | h0j
    · subst h0j
      refine ⟨oneHotRow (labelAt buffer 0), ?_, oneHotRow_length _, ?_⟩
      · exact get?_set_self _ _ _ (by simp only [List.length_replicate]; omega)
      · simp only [oneHotRow, List.set_set]
    · refine ⟨zeroRow, ?_, by simp [zeroRow], rfl⟩
      rw [List.get?_set_ne _ _ (by omega)]
      exact get?_replicate_lt _ (by omega)
  obtain ⟨L, hL, hlenL, hin, hout⟩ :=
    decodeUpTo_ok buffer ((List.replicate N zeroRow).set 0 (oneHotRow (labelAt buffer 0)))
      i (by omega) hlbl hrowAll
  have hgeti : buffer.get? (i * 3073) = some (labelAt buffer i) :=
    get?_labelAt (by omega)
  have hstep : decodeStep buffer (loopData buffer i, L) i =
      .error (.labelRange (labelAt buffer i)) := by
    simp only [decodeStep, hgeti]
    rw [if_pos hbad]
  have herr : decodeUpTo buffer
      ((List.replicate N zeroRow).set 0 (oneHotRow (labelAt buffer 0))) (i + 1) =
      .error (.labelRange (labelAt buffer i)) := by
    simp only [decodeUpTo, hL, hstep]
  have herrN := decodeUpTo_error_mono (Nat.succ_le_of_lt hiN) herr
  simp only [getData, hb0, hset, herrN]

/-! ## Claims -/

/-- C1: the decoded label of record `i` is `buffer[i * 3073]`, but the
claimed Label-Range abort does not cover record 0: the pre-loop statement
`labels[[0, buffer[0] as usize]] = 1` (`lib.rs` line 284) runs before the
loop's range check, so a label byte 10 at record 0 aborts with an `ndarray`
index-out-of-bounds panic at column 10 (first conjunct), while the same bad
label at record 1 does reach the loop and aborts with the Label-Range panic
reporting the value (second conjunct). -/
theorem spec_c1_record0_bypasses_label_check :
    getData (10 :: List.replicate 3072 0) 1 = .error (.tensorIndexOOB 0 10) ∧
    getData (0 :: (List.replicate 3072 0 ++ (12 :: List.replicate 3072 0))) 2 =
      .error (.labelRange 12) := by
  constructor
  · rfl
  · have hb : (0 :: (List.replicate 3072 (0 : Nat) ++
        (12 :: List.replicate 3072 0))).get? (1 * 3073) = some 12 := by
      rw [show (1 : Nat) * 3073 = 3072 + 1 by omega]
      rw [List.get?_cons_succ,
        List.get?_append_right (by simp only [List.length_replicate]; omega)]
      simp only [List.length_replicate]
      rfl
    have h12 : labelAt (0 :: (List.replicate 3072 0 ++
        (12 :: List.replicate 3072 0))) 1 = 12 := labelAt_of_get? hb
    have hl0 : labelAt (0 :: (List.replicate 3072 0 ++
        (12 :: List.replicate 3072 0))) 0 = 0 := labelAt_of_get? rfl
    have h := @getData_error_label
      (0 :: (List.replicate 3072 0 ++ (12 :: List.replicate 3072 0)))
      2 1 (by omega) (by omega)
      (by
        simp only [List.length_cons, List.length_append, List.length_replicate]
        omega)
      (by
        intro j hj
        have hj0 : j = 0 := by omega
        subst hj0
        rw [hl0]
        omega)
      (by rw [h12]; omega)
    rw [h12] at h
    exact h

/-- C2 counterexample: decoding the truncated buffer `[3]` (length 1, one
configured record) fails with the slice-range panic of
`data.extend(&buffer[1..=3072])` — an out-of-bounds indexing failure, not a
dedicated Truncated-Input error; `DecodeError`, which enumerates every
failure mode of the source, has no Truncated-Input kind at all. -/
theorem spec_c2_cex : getData [3] 1 = .error (.sliceOOB 3073) := rfl

/-- C2 (amended): a buffer strictly shorter than `N * 3073` bytes never
decodes successfully — no tensors for fewer than `N` records are ever
returned — though the failure is an indexing panic rather than a dedicated
Truncated-Input error. -/
theorem spec_c2_truncated_never_ok (buffer : List Nat) (N : Nat) (ok : DecodeOk)
    (h : buffer.length < N * 3073) : getData buffer N ≠ .ok ok := by
  intro hok
  obtain ⟨-, hlen, -, -⟩ := getData_ok_inv hok
  omega

/-- C2 witness: the truncated buffer `[3]` never yields tensors. -/
theorem spec_c2_witness : getData [3] 1 ≠ .ok ⟨[], []⟩ :=
  spec_c2_truncated_never_ok [3] 1 ⟨[], []⟩ (by decide)

/-- C10: the pre-loop statement `labels[[0, buffer[0] as usize]] = 1`
(`lib.rs` line 284) runs before the record loop and before any validation:
for every `num_records`, an empty buffer fails indexing `buffer[0]`, and a
first byte above 9 fails the `ndarray` column bound (label width 10) — in
both cases with an out-of-bounds access, not via the Truncated-Input or
Label-Range paths. -/
theorem spec_c10_preloop_oob (buffer : List Nat) (N : Nat) :
    (buffer = [] → getData buffer N = .error (.bufferIndexOOB 0)) ∧
    (∀ b0, buffer.get? 0 = some b0 → 9 < b0 →
      getData buffer N = .error (.tensorIndexOOB 0 b0)) := by
  constructor
  · intro h
    subst h
    rfl
  · intro b0 hb0 h9
    have hm : mat2set (List.replicate N zeroRow) 0 b0 1 = none := by
      unfold mat2set
      cases hr : (List.replicate N zeroRow).get? 0 with
      | none => rfl
      | some row =>
          have hrz : row = zeroRow := List.eq_of_mem_replicate (List.get?_mem hr)
          subst hrz
          show (if b0 < zeroRow.length then
              some ((List.replicate N zeroRow).set 0 (zeroRow.set b0 1))
            else none) = none
          rw [if_neg (by simp only [zeroRow, List.length_replicate]; omega)]
    simp only [getData, hb0, hm]

/-- C10 witness: buffer `[12]` with `num_records` 5 fails at the pre-loop
statement with the tensor index panic at column 12. -/
theorem spec_c10_witness : getData [12] 5 = .error (.tensorIndexOOB 0 12) :=
  (spec_c10_preloop_oob [12] 5).2 12 rfl (by omega)

/-- C8 counterexample: the boundary case `num_records = 0` with an empty
buffer — a well-formed input by the claim — does not succeed: the pre-loop
statement indexes `buffer[0]` and fails. -/
theorem spec_c8_cex : getData ([] : List Nat) 0 = .error (.bufferIndexOOB 0) := rfl

/-- C8 (amended): for well-formed inputs with `N ≥ 1` the decode is total
and deterministic — the result is the canonical pure function of the buffer
and the record count alone — and the preview flag `show_images` has no
effect on the returned tensors; the `N = 0` empty-buffer boundary case
fails at the pre-loop statement instead. -/
theorem spec_c8_total_deterministic (buffer : List Nat) (N : Nat) (hN : 1 ≤ N)
    (hlen : buffer.length = N * 3073)
    (hlbl : ∀ i, i < N → labelAt buffer i ≤ 9) :
    getData buffer N = .ok ⟨decodedData buffer N, decodedLabels buffer N⟩ ∧
    ∀ (c : Cifar10Config) (s : Bool) (dataset : String) (files : List (List Nat)),
      getDataCfg { c with showImages := s } dataset files =
        getDataCfg c dataset files := by
  constructor
  · exact getData_ok buffer N hN (by omega) hlbl
  · intro c s dataset files
    rfl

/-- C8 witness: the concrete single-record input `c8buf` decodes to the
canonical tensors, and flipping `show_images` on the default configuration
does not change the result. -/
theorem spec_c8_witness :
    getData c8buf 1 = .ok ⟨decodedData c8buf 1, decodedLabels c8buf 1⟩ ∧
    getDataCfg { defaultConfig with showImages := true } ("test") [] =
      getDataCfg defaultConfig ("test") [] := by
  have h := spec_c8_total_deterministic c8buf 1 (by omega)
    (by simp only [c8buf, List.length_cons, List.length_replicate])
    (by decide)
  exact ⟨h.1, h.2 defaultConfig true ("test") []⟩

/-- C3 counterexample: the empty buffer with `num_records = 0` is
well-formed (its length is exactly `0 * 3073` and the label condition is
vacuous), yet decoding returns no tensors: it fails at the pre-loop
statement indexing `buffer[0]`. -/
theorem spec_c3_cex :
    ([] : List Nat).length = 0 * 3073 ∧
      getData ([] : List Nat) 0 = .error (.bufferIndexOOB 0) :=
  ⟨rfl, rfl⟩

/-- C3 (amended): for every well-formed input with `N ≥ 1` records
(buffer of exactly `N * 3073` bytes, all label bytes at most 9), decoding
succeeds with an image tensor of `N * 3 * 32 * 32` bytes — shape
`(N, 3, 32, 32)` under the row-major index map — and an `(N, 10)` label
matrix in which every row holds exactly one 1 and nine 0s, so each row sums
to exactly 1; the `N = 0` well-formed input fails instead. -/
theorem spec_c3_shapes_onehot (buffer : List Nat) (N : Nat) (hN : 1 ≤ N)
    (hlen : buffer.length = N * 3073)
    (hlbl : ∀ i, i < N → labelAt buffer i ≤ 9) :
    ∃ ok : DecodeOk, getData buffer N = .ok ok ∧
      ok.data.length = N * (3 * 32 * 32) ∧
      ok.labels.length = N ∧
      ∀ row ∈ ok.labels, row.length = 10 ∧ row.sum = 1 ∧
        row.count 1 = 1 ∧ row.count 0 = 9 := by
  refine ⟨⟨decodedData buffer N, decodedLabels buffer N⟩,
    getData_ok buffer N hN (by omega) hlbl, ?_, ?_, ?_⟩
  · have h := loopData_length buffer N (by omega)
    show (decodedData buffer N).length = N * (3 * 32 * 32)
    unfold decodedData
    rw [h]
  · exact decodedLabels_length buffer N
  · intro row hrow
    have hrow2 : row ∈ decodedLabels buffer N := hrow
    unfold decodedLabels at hrow2
    obtain ⟨i, hi, hrfl⟩ := List.mem_map.mp hrow2
    subst hrfl
    exact oneHotRow_stats (hlbl i (List.mem_range.mp hi))

/-- C3 witness: the single-record input `c3buf` (label 5) yields the
claimed shapes and one-hot rows. -/
theorem spec_c3_witness :
    ∃ ok : DecodeOk, getData c3buf 1 = .ok ok ∧
      ok.data.length = 1 * (3 * 32 * 32) ∧
      ok.labels.length = 1 ∧
      ∀ row ∈ ok.labels, row.length = 10 ∧ row.sum = 1 ∧
        row.count 1 = 1 ∧ row.count 0 = 9 :=
  spec_c3_shapes_onehot c3buf 1 (by omega)
    (by simp only [c3buf, List.length_cons, List.length_replicate])
    (by decide)

/-- C4: whenever `get_data` succeeds, every image tensor entry comes from
exactly the claimed buffer byte:
`image[i][ch][r][c] = buffer[i*3073 + 1 + ch*1024 + r*32 + c]` under the
row-major layout of the `(N, 3, 32, 32)` tensor. -/
theorem spec_c4_image_layout (buffer : List Nat) (N : Nat) (ok : DecodeOk)
    (h : getData buffer N = .ok ok) :
    ∀ i ch r c, i < N → ch < 3 → r < 32 → c < 32 →
      ok.data.get? (i * 3072 + ch * 1024 + r * 32 + c) =
        buffer.get? (i * 3073 + 1 + (ch * 1024 + r * 32 + c)) := by
  intro i ch r c hi hch hr hc
  obtain ⟨hN, hlen, hlbl, hok⟩ := getData_ok_inv h
  subst hok
  have hk : ch * 1024 + r * 32 + c < 3072 := by omega
  have hmain := loopData_get? buffer N hlen i (ch * 1024 + r * 32 + c) hi hk
  rw [show i * 3072 + ch * 1024 + r * 32 + c =
    i * 3072 + (ch * 1024 + r * 32 + c) by omega]
  exact hmain

set_option maxRecDepth 8000 in
/-- C4 witness: the synthetic record of the claim — label 3, channel 0 all
10, channel 1 all 20, channel 2 all 30 — decodes so that the tensor entry
at `(0, 1, 5, 7)` is the buffer byte at `0*3073 + 1 + 1*1024 + 5*32 + 7`,
whose value is 20. -/
theorem spec_c4_witness :
    (DecodeOk.mk (decodedData synthBuffer 1) (decodedLabels synthBuffer 1)).data.get?
        (0 * 3072 + 1 * 1024 + 5 * 32 + 7) =
      synthBuffer.get? (0 * 3073 + 1 + (1 * 1024 + 5 * 32 + 7)) ∧
    synthBuffer.get? (0 * 3073 + 1 + (1 * 1024 + 5 * 32 + 7)) = some 20 := by
  constructor
  · exact spec_c4_image_layout synthBuffer 1
      ⟨decodedData synthBuffer 1, decodedLabels synthBuffer 1⟩
      (getData_ok synthBuffer 1 (by omega)
        (by
          simp only [synthBuffer, List.length_cons, List.length_append,
            List.length_replicate]
          omega)
        (by decide))
      0 1 5 7 (by omega) (by omega) (by omega) (by omega)
  · decide

/-- C7 counterexample: a buffer of 3074 bytes — strictly more than the
`1 * 3073` bytes of the single configured record — does not fail: the
decode succeeds, returning the tensors of the first record. -/
theorem spec_c7_cex :
    1 * 3073 < c7buf.length ∧
      getData c7buf 1 = .ok ⟨decodedData c7buf 1, decodedLabels c7buf 1⟩ := by
  constructor
  · simp only [c7buf, List.length_cons, List.length_append,
      List.length_replicate, List.length_nil]
    omega
  · exact getData_ok c7buf 1 (by omega)
      (by
        simp only [c7buf, List.length_cons, List.length_append,
          List.length_replicate, List.length_nil]
        omega)
      (by decide)

/-- C7 (amended): on a buffer strictly longer than `N * 3073` bytes whose
first `N` records are valid, with `N ≥ 1`, the decode does not fail: it
silently succeeds with the tensors of the first `N` records, and the
surplus bytes are ignored — the result equals decoding the buffer
truncated to `N * 3073` bytes. In the one remaining overrun case, `N = 0`
with a nonempty buffer, the decode instead fails at the pre-loop statement
(`lib.rs` line 284): row 0 of the 0-row label matrix is out of bounds
(last conjunct) — still never a dedicated overrun/structural error. -/
theorem spec_c7_overrun_ignored (buffer : List Nat) (N : Nat) (hN : 1 ≤ N)
    (hlen : N * 3073 < buffer.length)
    (hlbl : ∀ i, i < N → labelAt buffer i ≤ 9) :
    (getData buffer N = .ok ⟨decodedData buffer N, decodedLabels buffer N⟩ ∧
      getData buffer N = getData (buffer.take (N * 3073)) N) ∧
    ∀ b0 rest : _, getData (b0 :: rest) 0 = .error (.tensorIndexOOB 0 b0) := by
  have h1 := getData_ok buffer N hN (by omega) hlbl
  have hlbl2 : ∀ i, i < N → labelAt (buffer.take (N * 3073)) i ≤ 9 := by
    intro i hi
    rw [labelAt_take (by omega)]
    exact hlbl i hi
  have h2 := getData_ok (buffer.take (N * 3073)) N hN
    (by rw [List.length_take]; omega) hlbl2
  refine ⟨⟨h1, ?_⟩, ?_⟩
  · rw [h1, h2]
    unfold decodedData
    rw [loopData_take N (le_refl _), decodedLabels_take (le_refl _)]
  · intro b0 rest
    rfl

/-- C7 witness: decoding the 3074-byte input `c7buf` as one record equals
decoding its first 3073 bytes, and the `N = 0` overrun `[5]` fails with the
pre-loop tensor index panic. -/
theorem spec_c7_witness :
    getData c7buf 1 = getData (c7buf.take (1 * 3073)) 1 ∧
    getData [5] 0 = .error (.tensorIndexOOB 0 5) := by
  have h := spec_c7_overrun_ignored c7buf 1 (by omega)
    (by
      simp only [c7buf, List.length_cons, List.length_append,
        List.length_replicate, List.length_nil]
      omega)
    (by decide)
  exact ⟨h.1.2, h.2 5 []⟩

lemma loopData_subset (buffer : List Nat) : ∀ N : Nat, loopData buffer N ⊆ buffer
  | 0 => by
      intro x hx
      cases hx
  | N + 1 => by
      intro x hx
      rcases List.mem_append.mp hx with h | h
      · exact loopData_subset buffer N h
      · exact List.drop_subset _ _ (List.take_subset _ _ h)

lemma getData_labels_onehot {buffer : List Nat} {N : Nat} {ok : DecodeOk}
    (h : getData buffer N = .ok ok) :
    ∀ row ∈ ok.labels, ∃ l, l ≤ 9 ∧ row = oneHotRow l := by
  obtain ⟨hN, hlen, hlbl, hok⟩ := getData_ok_inv h
  subst hok
  intro row hrow
  have hrow2 : row ∈ decodedLabels buffer N := hrow
  unfold decodedLabels at hrow2
  obtain ⟨i, hi, hrfl⟩ := List.mem_map.mp hrow2
  exact ⟨labelAt buffer i, hlbl i (List.mem_range.mp hi), hrfl.symm⟩

lemma labelAt_append_left {A B : List Nat} {i : Nat} (h : i * 3073 < A.length) :
    labelAt (A ++ B) i = labelAt A i := by
  unfold labelAt
  rw [List.get?_append h]

lemma labelAt_append_right {A B : List Nat} {i : Nat} (h : A.length ≤ i * 3073) :
    labelAt (A ++ B) i = (B.get? (i * 3073 - A.length)).getD 0 := by
  unfold labelAt
  rw [List.get?_append_right h]

/-- C5: the flat/float post-processing of `build_as_flat_f32` divides every
image byte by exactly 256 (never 255), so each output value lies in
`[0, 255/256]` and multiplying by 256 recovers the original byte exactly,
and the label tensor is cast with no rescaling and unchanged shape. The
`f32` arithmetic is modelled exactly in `ℚ` (see `flatDataQ`: every
operation on this path is exact in binary32). -/
theorem spec_c5_flat_float_scaling (buffer : List Nat) (N : Nat) (ok : DecodeOk)
    (h : getData buffer N = .ok ok) (hbytes : ∀ b ∈ buffer, b ≤ 255) :
    buildAsFlatF32Split N ok = .ok (flatDataQ ok, flatLabelsQ ok) ∧
    (flatDataQ ok).length = N * 3072 ∧
    (∀ j b, ok.data.get? j = some b →
      (flatDataQ ok).get? j = some ((b : ℚ) / 256) ∧
      0 ≤ (b : ℚ) / 256 ∧ (b : ℚ) / 256 ≤ 255 / 256 ∧
      256 * ((b : ℚ) / 256) = (b : ℚ)) ∧
    flatLabelsQ ok = ok.labels.map (fun row => row.map (fun x : Nat => (x : ℚ))) := by
  obtain ⟨hN, hlen, hlbl, hok⟩ := getData_ok_inv h
  have hdatalen : ok.data.length = N * 3072 := by
    rw [hok]
    exact loopData_length buffer N hlen
  refine ⟨?_, ?_, ?_, rfl⟩
  · unfold buildAsFlatF32Split
    rw [if_pos hdatalen]
  · unfold flatDataQ
    rw [List.length_map, hdatalen]
  · intro j b hjb
    have hmem : b ∈ buffer := by
      have hmem0 : b ∈ ok.data := List.get?_mem hjb
      rw [hok] at hmem0
      exact loopData_subset buffer N hmem0
    have hb255 : (b : ℚ) ≤ 255 := by
      exact_mod_cast hbytes b hmem
    have hb0 : (0 : ℚ) ≤ (b : ℚ) := by positivity
    refine ⟨?_, by positivity, ?_, ?_⟩
    · unfold flatDataQ
      rw [List.get?_map, hjb]
      rfl
    · rw [div_le_div_iff_of_pos_right (by norm_num : (0 : ℚ) < 256)]
      exact hb255
    · rw [mul_comm]
      exact div_mul_cancel₀ _ (by norm_num)

/-- C5 witness: the single-record input `c5buf` (all payload bytes 7)
passes the flat/float post-processing, every flat value is `7/256`, and
`256 * (7/256) = 7`. -/
theorem spec_c5_witness :
    buildAsFlatF32Split 1 ⟨decodedData c5buf 1, decodedLabels c5buf 1⟩ =
      .ok (flatDataQ ⟨decodedData c5buf 1, decodedLabels c5buf 1⟩,
        flatLabelsQ ⟨decodedData c5buf 1, decodedLabels c5buf 1⟩) :=
  (spec_c5_flat_float_scaling c5buf 1
    ⟨decodedData c5buf 1, decodedLabels c5buf 1⟩
    (getData_ok c5buf 1 (by omega)
      (by
        simp only [c5buf, List.length_cons, List.length_replicate]
        omega)
      (by decide))
    (by
      intro b hb
      rcases List.mem_cons.mp hb with hb2 | hb7
      · omega
      · have := List.eq_of_mem_replicate hb7
        omega)).1

/-- C6: the `encode_one_hot` flag is recorded by the builder but never read
on the decode path: two runs differing only in the flag return identical
results, and whenever the decode succeeds every label row is a one-hot row
(never a plain integer label). -/
theorem spec_c6_one_hot_flag_ignored :
    ∀ (config : Cifar10Config) (b : Bool) (dataset : String)
      (files : List (List Nat)),
      getDataCfg (config.withEncodeOneHot b) dataset files =
        getDataCfg config dataset files ∧
      (∀ ok : DecodeOk, getDataCfg config dataset files = .ok ok →
        ∀ row ∈ ok.labels, ∃ l, l ≤ 9 ∧ row = oneHotRow l) := by
  intro config b dataset files
  constructor
  · rfl
  · intro ok hok
    unfold getDataCfg at hok
    split at hok
    · exact getData_labels_onehot hok
    · exact getData_labels_onehot hok
    · cases hok

/-- C6 witness: with the training count set to 1 and the single file
`c6buf`, disabling the one-hot flag leaves the result unchanged and the
decoded label rows are one-hot. -/
theorem spec_c6_witness :
    getDataCfg (cfg6.withEncodeOneHot false) ("train") [c6buf] =
      getDataCfg cfg6 ("train") [c6buf] ∧
    ∀ row ∈ (DecodeOk.mk (decodedData c6buf 1) (decodedLabels c6buf 1)).labels,
      ∃ l, l ≤ 9 ∧ row = oneHotRow l := by
  have h := spec_c6_one_hot_flag_ignored cfg6 false ("train") [c6buf]
  refine ⟨h.1, h.2 ⟨decodedData c6buf 1, decodedLabels c6buf 1⟩ ?_⟩
  show getData (loadBuffer [c6buf]) cfg6.numRecordsTrain =
    .ok ⟨decodedData c6buf 1, decodedLabels c6buf 1⟩
  rw [show loadBuffer [c6buf] = c6buf from by
    rw [loadBuffer_eq_join]
    simp]
  exact getData_ok c6buf 1 (by omega)
    (by
      simp only [c6buf, List.length_cons, List.length_replicate]
      omega)
    (by decide)

/-- C9: the raw buffer is the concatenation of the listed files' bytes in
file-list order (first conjunct, for any file list), and in the concrete
two-files-of-two-records scenario records 0 and 1 decode from file `A`
while records 2 and 3 decode from file `B`, both for the label rows and for
every image payload byte. -/
theorem spec_c9_files_concat_in_order (A B : List Nat)
    (hA : A.length = 2 * 3073) (hB : B.length = 2 * 3073)
    (hlblA : ∀ i, i < 2 → labelAt A i ≤ 9)
    (hlblB : ∀ i, i < 2 → labelAt B i ≤ 9) :
    (∀ files : List (List Nat), loadBuffer files = files.join) ∧
    loadBuffer [A, B] = A ++ B ∧
    getData (loadBuffer [A, B]) 4 =
      .ok ⟨decodedData (A ++ B) 4, decodedLabels (A ++ B) 4⟩ ∧
    (∀ i, i < 2 →
      (decodedLabels (A ++ B) 4).get? i = some (oneHotRow (labelAt A i)) ∧
      ∀ k, k < 3072 → (decodedData (A ++ B) 4).get? (i * 3072 + k) =
        A.get? (i * 3073 + 1 + k)) ∧
    (∀ i, 2 ≤ i → i < 4 →
      (decodedLabels (A ++ B) 4).get? i = some (oneHotRow (labelAt B (i - 2))) ∧
      ∀ k, k < 3072 → (decodedData (A ++ B) 4).get? (i * 3072 + k) =
        B.get? ((i - 2) * 3073 + 1 + k)) := by
  have hAB : loadBuffer [A, B] = A ++ B := by
    rw [loadBuffer_eq_join]
    simp
  have hlen : (A ++ B).length = 4 * 3073 := by
    rw [List.length_append]
    omega
  have hlblLeft : ∀ i, i < 2 → labelAt (A ++ B) i = labelAt A i := by
    intro i hi
    exact labelAt_append_left (by omega)
  have hlblRight : ∀ i, 2 ≤ i → i < 4 →
      labelAt (A ++ B) i = labelAt B (i - 2) := by
    intro i h2 h4
    rw [labelAt_append_right (by omega)]
    unfold labelAt
    rw [hA, show i * 3073 - 2 * 3073 = (i - 2) * 3073 by omega]
  have hlblAB : ∀ i, i < 4 → labelAt (A ++ B) i ≤ 9 := by
    intro i hi
    rcases Nat.lt_or_ge i 2 with h2 | h2
    · rw [hlblLeft i h2]
      exact hlblA i h2
    · rw [hlblRight i h2 hi]
      exact hlblB (i - 2) (by omega)
  refine ⟨loadBuffer_eq_join, hAB, ?_, ?_, ?_⟩
  · rw [hAB]
    exact getData_ok (A ++ B) 4 (by omega) (by omega) hlblAB
  · intro i hi
    refine ⟨?_, ?_⟩
    · rw [decodedLabels_get?_lt (by omega), hlblLeft i hi]
    · intro k hk
      have hmain := loopData_get? (A ++ B) 4 (by omega) i k (by omega) hk
      unfold decodedData
      rw [hmain, List.get?_append (by omega)]
  · intro i h2 h4
    refine ⟨?_, ?_⟩
    · rw [decodedLabels_get?_lt (by omega), hlblRight i h2 h4]
    · intro k hk
      have hmain := loopData_get? (A ++ B) 4 (by omega) i k (by omega) hk
      unfold decodedData
      rw [hmain, List.get?_append_right (by omega), hA,
        show i * 3073 + 1 + k - 2 * 3073 = (i - 2) * 3073 + 1 + k by omega]

/-- C9 witness: with the concrete files `fileA` (records labelled 1, 2)
and `fileB` (records labelled 3, 4), record index 2 of the concatenated
decode carries the one-hot row of file B's first label byte. -/
theorem spec_c9_witness :
    (decodedLabels (fileA ++ fileB) 4).get? 2 =
      some (oneHotRow (labelAt fileB 0)) := by
  have hA1 : fileA.get? (1 * 3073) = some 2 := by
    show (1 :: (List.replicate 3072 0 ++ (2 :: List.replicate 3072 0))).get?
      (1 * 3073) = some 2
    rw [show (1 : Nat) * 3073 = 3072 + 1 by omega, List.get?_cons_succ,
      List.get?_append_right (by simp only [List.length_replicate]; omega)]
    simp only [List.length_replicate]
    rfl
  have hB1 : fileB.get? (1 * 3073) = some 4 := by
    show (3 :: (List.replicate 3072 0 ++ (4 :: List.replicate 3072 0))).get?
      (1 * 3073) = some 4
    rw [show (1 : Nat) * 3073 = 3072 + 1 by omega, List.get?_cons_succ,
      List.get?_append_right (by simp only [List.length_replicate]; omega)]
    simp only [List.length_replicate]
    rfl
  have h := spec_c9_files_concat_in_order fileA fileB
    (by
      simp only [fileA, List.length_cons, List.length_append,
        List.length_replicate])
    (by
      simp only [fileB, List.length_cons, List.length_append,
        List.length_replicate])
    (by
      intro i hi
      interval_cases i
      · rw [labelAt_of_get? (show fileA.get? (0 * 3073) = some 1 from rfl)]
        omega
      · rw [labelAt_of_get? hA1]
        omega)
    (by
      intro i hi
      interval_cases i
      · rw [labelAt_of_get? (show fileB.get? (0 * 3073) = some 3 from rfl)]
        omega
      · rw [labelAt_of_get? hB1]
        omega)
  exact (h.2.2.2.2 2 (by omega) (by omega)).1
